import Mathlib

/-!
Shallow embedding of requirementslib's dependency-resolution core
(src/requirementslib/models/dependencies.py): the AbstractDependency
model with its merge operations, candidate resolution, the four-tier
dependency-retrieval pipeline, and constraint grouping.

Objects coming from external libraries (packaging specifier sets and
markers, pip install requirements, the JSON metadata service, the caches)
are modelled only as far as the embedded code inspects them; each such
model carries a doc comment naming the external piece and the spec text
it follows.
-/

namespace Requirementslib

/-- Modelled from the spec: a packaging SpecifierSet as the embedded code
uses it.  It carries the underlying collection of individual specifier
strings (the object's private spec list) and an unset flag; the
conjunction of two specifier sets merges the spec lists and raises
(a TypeError caught by `get_grouped_dependencies`) exactly when one side
is unset, following the spec's "if the algebra's conjunction raises
because one side's range is unset/empty". -/
structure SpecifierSet where
  unset : Bool
  specs : List String
deriving DecidableEq, Repr

/-- The conjunction of two specifier sets (the Python binary and of two
SpecifierSets); the error value models the TypeError the source guards
against in `get_grouped_dependencies`. -/
def specAnd (a b : SpecifierSet) : Except Unit SpecifierSet :=
  if a.unset || b.unset then .error ()
  else .ok { unset := false, specs := (a.specs ++ b.specs).eraseDups }

/-- Modelled from the spec: one element of a packaging Marker object's
private marker list. The embedded code only distinguishes whether an
element is a tuple (a leaf marker expression), a nested list, or a bare
string such as the connective written between two marker lists. -/
inductive MElem where
  | strE (s : String)
  | tupE (t : List String)
  | lstE (l : List MElem)
deriving Repr

/-- Modelled from the spec: a packaging Marker object, holding its private
marker-element list. A parsed marker is never empty, so the list is kept
as a head element plus a tail. -/
structure Markers where
  hd : MElem
  tl : List MElem
deriving Repr

/-- The full marker-element list of a marker object. -/
def Markers.toList (m : Markers) : List MElem := m.hd :: m.tl

/-- Modelled from the spec: a pip InstallRequirement as the embedded code
reads it: a name, a specifier set, the exact version a pinned candidate
carries (the value the external `version_from_ireq` helper extracts,
with parsed versions modelled as naturals), the editable flag, optional
environment markers, the extras tuple and the constraint flag. -/
structure IReq where
  name : String
  specifier : SpecifierSet
  version : Nat
  editable : Bool
  markers : Option Markers
  extras : List String
  constraint : Bool
deriving Repr

/-- Whether a specifier string begins with the exact double-equals
operator. -/
def spec_is_eqeq (s : String) : Bool :=
  match s.toList with
  | '=' :: '=' :: _ => true
  | _ => false

/-- Whether a specifier string ends with the dot-star wildcard. -/
def spec_is_wildcard (s : String) : Bool :=
  match s.toList.reverse with
  | '*' :: '.' :: _ => true
  | _ => false

/-- Modelled from the spec: `is_pinned_requirement` from the models
utilities (not under src): a non-editable requirement whose range is a
single exact double-equals pin that is not a wildcard pin. -/
def is_pinned_requirement (i : IReq) : Bool :=
  if i.editable then false
  else match i.specifier.specs with
    | [s] => spec_is_eqeq s && !(spec_is_wildcard s)
    | _ => false

/-- Modelled from the spec: `format_requirement` from the models utilities
(not under src), rendering a requirement as its canonical line; the
embedding only needs it as an injective key for per-candidate caches. -/
def format_requirement (i : IReq) : String :=
  (if i.editable then "-e " else "") ++ i.name ++ "==" ++ toString i.version

/-- Modelled from the spec: the Requirement entity of the requirements
module (not under src); the embedded code only reads its underlying
install requirement. -/
structure Requirement where
  ireq : IReq
deriving Repr

/-- Modelled from the spec: the round trip the merge performs through
Requirement.from_line of a formatted install requirement, yielding a
Requirement carrying that install requirement. -/
def requirement_from_line (i : IReq) : Requirement := ⟨i⟩

/-- The central entity of dependencies.py: attrs class AbstractDependency
with name, specifiers, markers, candidate list, originating requirement,
optional parent and the lazily filled per-candidate dependency mapping
(an association list keyed by formatted candidate). The finder attribute
is an external handle the embedded operations never inspect and is
omitted. -/
structure AbstractDependency where
  name : String
  specifiers : SpecifierSet
  markers : Option Markers
  candidates : List IReq
  requirement : Requirement
  parent : Option String
  dep_dict : List (String × List String)
deriving Repr

/-- The guard the merge operations test: exactly one candidate and that
candidate editable (len of candidates is one and its first element's
editable flag holds). -/
def single_editable (cands : List IReq) : Bool :=
  cands.length == 1 && ((cands.head?.map (fun c => c.editable)).getD false)

/-- AbstractDependency.version_set: empty when there is exactly one
candidate, else the set of the candidates' parsed versions. -/
def AbstractDependency.version_set (d : AbstractDependency) : Finset Nat :=
  if d.candidates.length == 1 then ∅
  else (d.candidates.map (fun c => c.version)).toFinset

/-- AbstractDependency.compatible_versions: an editable singleton side is
returned verbatim, otherwise the intersection of both version sets. -/
def AbstractDependency.compatible_versions (self other : AbstractDependency) :
    AbstractDependency ⊕ Finset Nat :=
  if single_editable self.candidates then .inl self
  else if single_editable other.candidates then .inl other
  else .inr (self.version_set ∩ other.version_set)

/-- Association-list lookup used for the dep_dict mapping. -/
def lookupAssoc (l : List (String × List String)) (k : String) : Option (List String) :=
  (l.find? (fun p => p.fst == k)).map (fun p => p.snd)

/-- AbstractDependency.compatible_abstract_dep: merge two abstract
dependencies. Editable singleton sides win verbatim; otherwise the
specifier sets are conjoined (unguarded, so a failing conjunction
propagates), a new requirement is rebuilt from the reformatted install
requirement, the candidate list is restricted to the compatible version
set and the dep_dict entries of surviving candidates are carried over. -/
def AbstractDependency.compatible_abstract_dep (self other : AbstractDependency) :
    Except Unit AbstractDependency :=
  if single_editable self.candidates then .ok self
  else if single_editable other.candidates then .ok other
  else
    match specAnd self.specifiers other.specifiers with
    | .error e => .error e
    | .ok new_specifiers =>
      let new_ireq : IReq := { self.requirement.ireq with specifier := new_specifiers }
      let new_requirement := requirement_from_line new_ireq
      match self.compatible_versions other with
      | .inl ad => .ok ad
      | .inr compatible =>
        let candidates := self.candidates.filter (fun c => decide (c.version ∈ compatible))
        let candidate_strings := candidates.map format_requirement
        let dep_dict := candidate_strings.foldl (fun acc c =>
            match lookupAssoc self.dep_dict c with
            | some v => acc ++ [(c, v)]
            | none => acc) []
        .ok { name := self.name
              specifiers := new_specifiers
              markers := self.markers
              candidates := candidates
              requirement := new_requirement
              parent := self.parent
              dep_dict := dep_dict }

/-! ### Candidate resolution: find_all_matches -/

/-- Modelled from the spec: an InstallationCandidate returned by the index
query service, carrying a name and a parsed version. -/
structure Cand where
  name : String
  version : Nat
deriving DecidableEq, Repr

/-- The helper that filters a version set through the requirement's
specifier with a pre-release flag.  The specifier's external filter
behaviour is modelled from the spec as an arbitrary membership function
respecting the pre-release flag, passed in as `sat`. -/
def get_filtered_versions (sat : Nat → Bool → Bool) (versions : Finset Nat)
    (prereleases : Bool) : Finset Nat :=
  versions.filter (fun v => sat v prereleases)

/-- The set of distinct versions of the index's candidates. -/
def versionsOf (candidates : List Cand) : Finset Nat :=
  (candidates.map (fun c => c.version)).toFinset

/-- find_all_matches: query the finder for all candidates of the name
(the query result is passed in as the candidate list), filter their
versions through the specifier with the given pre-release flag, widen
once to include pre-releases when the flag was off and the filtered set
came out empty, and keep the candidates whose version is allowed. -/
def find_all_matches (candidates : List Cand) (sat : Nat → Bool → Bool)
    (pre : Bool := false) : Finset Cand :=
  let versions := versionsOf candidates
  let allowed0 := get_filtered_versions sat versions pre
  let allowed_versions :=
    if pre = false ∧ allowed0 = ∅ then get_filtered_versions sat versions true
    else allowed0
  candidates.toFinset.filter (fun c => c.version ∈ allowed_versions)

/-! ### The dependency cache and the four-tier retrieval pipeline -/

/-- Modelled from the spec: the persistent Dependency Cache (cache module,
not under src): a mapping from the canonical pinned-requirement string to
its list of dependency strings. -/
abbrev DepCache : Type := List (String × List String)

/-- Dictionary lookup in the dependency cache. -/
def DepCache.lookup (c : DepCache) (k : String) : Option (List String) :=
  (c.find? (fun p => p.fst == k)).map (fun p => p.snd)

/-- Dictionary write in the dependency cache. -/
def DepCache.insert (c : DepCache) (k : String) (v : List String) : DepCache :=
  (k, v) :: c

/-- Modelled from the spec: the canonical cache key of a candidate, the
requirement canonical string keyed by the exact pinned version. -/
def cacheKey (i : IReq) : String := i.name ++ "==" ++ toString i.version

/-- get_dependencies_from_cache: a non-editable candidate present in the
dependency cache answers with the cached list as a set; editable
candidates and cache misses give no answer. -/
def get_dependencies_from_cache (dep : IReq) (cache : DepCache) :
    Option (Finset String) :=
  if !dep.editable then
    match cache.lookup (cacheKey dep) with
    | some cached => some cached.toFinset
    | none => none
  else none

/-- get_dependencies_from_wheel_cache: editable candidates give no answer;
otherwise the wheel cache's matches (an external lookup result, passed
in) are returned as a set when non-empty, backfilling the dependency
cache only when it had no truthy prior entry.  Iteration over the Python
set of matches is modelled by deduplicating the match list. -/
def get_dependencies_from_wheel_cache (ireq : IReq)
    (wheelMatches : Option (List String)) (cache : DepCache) :
    Option (Finset String) × DepCache :=
  if ireq.editable then (none, cache)
  else
    match wheelMatches with
    | some (m :: ms) =>
      let found := (m :: ms).toFinset
      let cache1 :=
        match cache.lookup (cacheKey ireq) with
        | some (_ :: _) => cache
        | _ => cache.insert (cacheKey ireq) (m :: ms).dedup
      (some found, cache1)
    | _ => (none, cache)

/-- Modelled from the spec: one dependency line of the remote-metadata
response, reduced to the two pieces the code inspects: its formatted
requirement line and whether its markers mention an extra gate. -/
structure JsonDep where
  formatted : String
  extraGated : Bool
deriving DecidableEq, Repr

/-- Modelled from the spec: the info object of a decodable JSON response,
whose requires list the API may return as absent. -/
structure JsonInfo where
  requires_dist : Option (List JsonDep)
deriving DecidableEq, Repr

/-- Modelled from the spec: the outcome of the metadata service call for
one candidate: either a malformed (non-JSON-decodable) body or a decoded
info object. -/
inductive JsonResult where
  | malformed
  | ok (info : JsonInfo)
deriving DecidableEq, Repr

/-- The generator inside get_dependencies_from_json: nothing when the
requires list is absent or empty, else the formatted lines of the
dependencies not gated behind an extra marker. -/
def json_gen (info : JsonInfo) : List String :=
  match info.requires_dist with
  | none => []
  | some rd =>
    if rd.isEmpty then []
    else (rd.filter (fun d => !d.extraGated)).map (fun d => d.formatted)

/-- Python exceptions the pipeline can surface. -/
inductive PyErr where
  | typeError
  | jsonDecode
  | runtimeError (msg : String)
deriving DecidableEq, Repr

/-- get_dependencies_from_json: editable candidates give no answer, a
non-pinned candidate raises TypeError.  For a candidate not in the
dependency cache the decoded response is listed into the cache and
returned as a set, a JSON decode error being caught as a tier miss; for
a candidate already in the cache a fresh query is made and returned
without touching the cache, with a decode error surfacing during the
iteration of the fresh generator and therefore propagating. -/
def get_dependencies_from_json (ireq : IReq) (resp : JsonResult)
    (cache : DepCache) : Except PyErr (Option (Finset String) × DepCache) :=
  if ireq.editable then .ok (none, cache)
  else if !(is_pinned_requirement ireq) then .error .typeError
  else
    match cache.lookup (cacheKey ireq) with
    | none =>
      match resp with
      | .malformed => .ok (none, cache)
      | .ok info =>
        let reqs := json_gen info
        .ok (some reqs.toFinset, cache.insert (cacheKey ireq) reqs)
    | some _ =>
      match resp with
      | .malformed => .error .jsonDecode
      | .ok info => .ok (some (json_gen info).toFinset, cache)

/-- get_dependencies_from_index: the internal resolution outcome is passed
in; any exception it raised was caught, leaving no requirements, so the
answer is the empty set; on success the resolved set is returned and, for
a non-editable candidate, listed into the dependency cache (set iteration
modelled by deduplication). -/
def get_dependencies_from_index (dep : IReq)
    (resolveResult : Except Unit (List String)) (cache : DepCache) :
    Finset String × DepCache :=
  match resolveResult with
  | .error _ => (∅, cache)
  | .ok rs =>
    let reqs := rs.toFinset
    if !dep.editable then (reqs, cache.insert (cacheKey dep) rs.dedup)
    else (reqs, cache)

/-- The four retrieval tiers, in the pipeline's fixed priority order. -/
inductive Tier where
  | cache
  | wheel
  | json
  | index
deriving DecidableEq, Repr

/-- The external world a single pipeline run observes: the dependency
cache at entry, the wheel cache's matches for the candidate, the
metadata service's response and the internal resolver's outcome. -/
structure World where
  depCache : DepCache
  wheelMatches : Option (List String)
  jsonResp : JsonResult
  resolveResult : Except Unit (List String)

/-- Run one getter of the pipeline on the current dependency cache. -/
def runTier (t : Tier) (ireq : IReq) (w : World) (cache : DepCache) :
    Except PyErr (Option (Finset String) × DepCache) :=
  match t with
  | .cache => .ok (get_dependencies_from_cache ireq cache, cache)
  | .wheel => .ok (get_dependencies_from_wheel_cache ireq w.wheelMatches cache)
  | .json => get_dependencies_from_json ireq w.jsonResp cache
  | .index =>
    let r := get_dependencies_from_index ireq w.resolveResult cache
    .ok (some r.fst, r.snd)

/-- The getter loop of get_dependencies: try each getter in order, return
the first answer that is not none, let exceptions propagate, and raise
the fatal RuntimeError naming the candidate when every getter declined.
The list of getters already invoked is threaded for observation. -/
def run_getters (ts : List Tier) (ireq : IReq) (w : World) (cache : DepCache)
    (invoked : List Tier) : Except PyErr (Finset String) × List Tier × DepCache :=
  match ts with
  | [] => (.error (.runtimeError ("failed to get dependencies for " ++ ireq.name)),
           invoked, cache)
  | t :: rest =>
    match runTier t ireq w cache with
    | .error e => (.error e, invoked ++ [t], cache)
    | .ok (some deps, cache1) => (.ok deps, invoked ++ [t], cache1)
    | .ok (none, cache1) => run_getters rest ireq w cache1 (invoked ++ [t])

/-- get_dependencies: the four-tier pipeline over cache, wheel cache, JSON
API and full index resolution. -/
def get_dependencies (ireq : IReq) (w : World) :
    Except PyErr (Finset String) × List Tier × DepCache :=
  run_getters [Tier.cache, Tier.wheel, Tier.json, Tier.index] ireq w w.depCache []

/-! ### Constraint grouping: get_grouped_dependencies -/

/-- Modelled from the spec: name normalization, case and separator
insensitive: letters are lowered and underscores folded to dashes. -/
def canonicalize (s : String) : String :=
  ⟨s.data.map (fun c => if c = '_' then '-' else c.toLower)⟩

/-- Modelled from the spec: `key_from_ireq` from the models utilities (not
under src), the canonical grouping key: the normalized package name. -/
def key_from_ireq (i : IReq) : String := canonicalize i.name

/-- Modelled from the spec: `full_groupby` from the models utilities (not
under src): group the declarations by key, preserving first-seen order
across groups and declaration order within a group.  Each group is
returned as its first element plus the rest, which keeps groups
non-empty by construction. -/
def full_groupby (l : List IReq) : List (IReq × List IReq) :=
  ((l.map key_from_ireq).eraseDups).filterMap (fun k =>
    match l.filter (fun i => key_from_ireq i == k) with
    | [] => none
    | a :: r => some (a, r))

/-- Insert a string into a sorted list of strings. -/
def insert_sorted (s : String) : List String → List String
  | [] => [s]
  | x :: xs => if s ≤ x then s :: x :: xs else x :: insert_sorted s xs

/-- Sort a list of strings ascending. -/
def sort_strings : List String → List String
  | [] => []
  | x :: xs => insert_sorted x (sort_strings xs)

/-- The sorted, de-duplicated tuple of extras the fold rebuilds. -/
def sorted_dedup (l : List String) : List String :=
  sort_strings l.eraseDups

/-- The marker step of the fold in get_grouped_dependencies: when the
accumulator has no markers it takes the incoming entry's markers;
otherwise, only when the head of the accumulator's marker list is
neither a tuple nor a list, the two marker lists are nested around the
and connective (reading the incoming entry's marker list raises an
AttributeError, modelled as the error value, when that entry has no
markers); when the head is a tuple or a list nothing is written and the
incoming markers are dropped. -/
def combine_markers_code (acc inc : Option Markers) : Except Unit (Option Markers) :=
  match acc with
  | none => .ok inc
  | some m =>
    match m.hd with
    | .tupE _ => .ok (some m)
    | .lstE _ => .ok (some m)
    | .strE _ =>
      match inc with
      | none => .error ()
      | some m2 => .ok (some ⟨.lstE m.toList, [.strE "and", .lstE m2.toList]⟩)

/-- One fold step of get_grouped_dependencies: conjoin the specifier sets,
on a TypeError fall back to the incoming spec list only when it is
non-empty and the accumulator's is empty; conjoin the constraint flags;
apply the marker step; rebuild the extras as a sorted de-duplicated
tuple. -/
def combine_ireqs (acc i : IReq) : Except Unit IReq := do
  let spec1 : SpecifierSet :=
    match specAnd acc.specifier i.specifier with
    | .ok s => s
    | .error _ =>
      if !i.specifier.specs.isEmpty && acc.specifier.specs.isEmpty then
        { acc.specifier with specs := i.specifier.specs }
      else acc.specifier
  let constr := acc.constraint && i.constraint
  let mk ← combine_markers_code acc.markers i.markers
  let extras := sorted_dedup (acc.extras ++ i.extras)
  return { acc with specifier := spec1, constraint := constr,
                    markers := mk, extras := extras }

/-- The left fold of a group onto its deep-copied first element. -/
def fold_combine (acc : IReq) : List IReq → Except Unit IReq
  | [] => .ok acc
  | i :: rest => do fold_combine (← combine_ireqs acc i) rest

/-- get_grouped_dependencies: group the declarations by canonical name;
a group containing an editable declaration yields its first editable
entry alone, any other group is folded left-to-right from its first
entry. -/
def get_grouped_dependencies (constraints : List IReq) : Except Unit (List IReq) :=
  (full_groupby constraints).mapM (fun g =>
    match (g.fst :: g.snd).find? (fun ireq => ireq.editable) with
    | some e => .ok e
    | none => fold_combine g.fst g.snd)

/-- The marker combination the claim describes: environment markers are
always combined with logical AND (an absent side contributing nothing). -/
def claim_and_markers (acc inc : Option Markers) : Option Markers :=
  match acc, inc with
  | none, m => m
  | some m, none => some m
  | some m, some m2 => some ⟨.lstE m.toList, [.strE "and", .lstE m2.toList]⟩

/-- One fold step as the amended claim describes it: as the original
claim, except that the accumulator's markers are kept and the incoming
markers discarded whenever the accumulator's marker list begins with a
tuple or a nested list, the AND join (whose read of an absent incoming
marker list fails) happening only for a bare-string head; the specifier
fallback keeps the accumulator's specs whenever they are non-empty. -/
def amended_combine (acc i : IReq) : Except Unit IReq := do
  let spec1 : SpecifierSet :=
    match specAnd acc.specifier i.specifier with
    | .ok s => s
    | .error _ =>
      if acc.specifier.specs.isEmpty then
        { acc.specifier with specs := i.specifier.specs }
      else acc.specifier
  let mk ← combine_markers_code acc.markers i.markers
  return { acc with specifier := spec1,
                    constraint := acc.constraint && i.constraint,
                    markers := mk,
                    extras := sorted_dedup (acc.extras ++ i.extras) }

/-- The grouping as the amended claim describes it. -/
def amended_grouped (constraints : List IReq) : Except Unit (List IReq) :=
  (full_groupby constraints).mapM (fun g =>
    match (g.fst :: g.snd).find? (fun ireq => ireq.editable) with
    | some e => .ok e
    | none => (g.snd).foldlM amended_combine g.fst)

/-! ### Shared concrete inputs for witnesses and counterexamples -/

/-- A pinned, non-editable candidate install requirement with the given
version, as the merge operations see it. -/
def mkCand (n : String) (v : Nat) (ed : Bool) : IReq :=
  { name := n, specifier := { unset := false, specs := ["==" ++ toString v] },
    version := v, editable := ed, markers := none, extras := [],
    constraint := false }

/-- An abstract dependency over the given candidate list. -/
def mkAbs (cands : List IReq) : AbstractDependency :=
  { name := "pkg", specifiers := { unset := false, specs := [] },
    markers := none, candidates := cands,
    requirement := ⟨mkCand "pkg" 0 false⟩, parent := none, dep_dict := [] }

/-- A world whose dependency cache already holds the pinned candidate
foo at version one. -/
def cacheWorld : World :=
  { depCache := [("foo==1", ["bar>=1"])], wheelMatches := none,
    jsonResp := .malformed, resolveResult := .error () }

/-- A world where every external lookup misses or fails. -/
def emptyWorld : World :=
  { depCache := [], wheelMatches := none, jsonResp := .malformed,
    resolveResult := .error () }

/-- An unpinned, non-editable install requirement. -/
def mkUnpinned (n : String) : IReq :=
  { mkCand n 1 false with specifier := { unset := false, specs := [">=1"] } }

/-- The metadata response used by the JSON-tier witnesses: one plain
dependency and one gated behind an extra marker. -/
def jsonInfo0 : JsonInfo := ⟨some [⟨"bar>=1", false⟩, ⟨"quux>=2", true⟩]⟩

/-- The four tiers, tried in order and threading the cache, each return
no answer.  This is what the claim's fatal branch would require. -/
def allTiersMiss (ireq : IReq) (w : World) : Prop :=
  ∃ c1 c2 c3 c4,
    runTier .cache ireq w w.depCache = .ok (none, c1) ∧
    runTier .wheel ireq w c1 = .ok (none, c2) ∧
    runTier .json ireq w c2 = .ok (none, c3) ∧
    runTier .index ireq w c3 = .ok (none, c4)

/-- An ordinary single-expression marker: its marker list starts with a
tuple, as packaging renders simple marker expressions. -/
def markerA : Markers := ⟨.tupE ["os-name", "==", "nt"], []⟩

/-- A second ordinary single-expression marker. -/
def markerB : Markers := ⟨.tupE ["python-version", ">=", "3"], []⟩

/-- A non-editable declaration of pkg carrying the first marker. -/
def ireqA : IReq :=
  { name := "pkg", specifier := { unset := false, specs := [">=1"] },
    version := 1, editable := false, markers := some markerA, extras := [],
    constraint := true }

/-- A second non-editable declaration of pkg carrying the second marker. -/
def ireqB : IReq :=
  { ireqA with
    specifier := ({ unset := false, specs := ["<3"] } : SpecifierSet),
    markers := some markerB }

/-! ### Theorems -/

/-- A group of candidates with length other than one is never an editable
singleton. -/
theorem single_editable_of_length_ne_one (l : List IReq) (h : l.length ≠ 1) :
    single_editable l = false := by
  simp [single_editable, h]

/-- Claim C5: find_all_matches filters the index's candidate versions with
the supplied pre-release flag; exactly when pre-releases were excluded
and the filtered set is empty it re-filters once including pre-releases,
and it returns the candidates whose version lies in the resulting
allowed set (so an empty result, even after the widened retry, is just
the empty set of this total function, not an error). -/
theorem C5_find_all_matches_prerelease_fallback
    (candidates : List Cand) (sat : Nat → Bool → Bool) :
    (find_all_matches candidates sat false =
      (if get_filtered_versions sat (versionsOf candidates) false = ∅ then
        candidates.toFinset.filter
          (fun c => c.version ∈ get_filtered_versions sat (versionsOf candidates) true)
      else
        candidates.toFinset.filter
          (fun c => c.version ∈ get_filtered_versions sat (versionsOf candidates) false)))
    ∧ (find_all_matches candidates sat true =
        candidates.toFinset.filter
          (fun c => c.version ∈ get_filtered_versions sat (versionsOf candidates) true)) := by
  constructor
  · by_cases h : get_filtered_versions sat (versionsOf candidates) false = ∅ <;>
      simp [find_all_matches, h]
  · simp [find_all_matches]

/-- Claim C1 (amended): merging two abstract dependencies, neither of
which is an editable singleton, never fails with an intersection error:
it returns a merged abstract dependency whose candidate list is the left
side's candidate list restricted to the common version set, even when
that restriction is empty. -/
theorem C1_merge_returns_empty_candidates (A B : AbstractDependency)
    (hA : single_editable A.candidates = false)
    (hB : single_editable B.candidates = false)
    (hsA : A.specifiers.unset = false)
    (hsB : B.specifiers.unset = false) :
    (A.compatible_abstract_dep B).map (fun d => d.candidates) =
      .ok (A.candidates.filter
        (fun c => decide (c.version ∈ A.version_set ∩ B.version_set))) := by
  simp [AbstractDependency.compatible_abstract_dep, hA, hB, specAnd, hsA, hsB,
        AbstractDependency.compatible_versions, Except.map]

/-- Claim C1, witness: a concrete merge through the amended theorem. -/
theorem C1_merge_returns_empty_candidates_witness :
    ((mkAbs [mkCand "pkg" 1 false, mkCand "pkg" 2 false]).compatible_abstract_dep
        (mkAbs [mkCand "pkg" 2 false, mkCand "pkg" 3 false])).map (fun d => d.candidates) =
      .ok ((mkAbs [mkCand "pkg" 1 false, mkCand "pkg" 2 false]).candidates.filter
        (fun c => decide (c.version ∈
          (mkAbs [mkCand "pkg" 1 false, mkCand "pkg" 2 false]).version_set ∩
          (mkAbs [mkCand "pkg" 2 false, mkCand "pkg" 3 false]).version_set))) :=
  C1_merge_returns_empty_candidates
    (mkAbs [mkCand "pkg" 1 false, mkCand "pkg" 2 false])
    (mkAbs [mkCand "pkg" 2 false, mkCand "pkg" 3 false]) rfl rfl rfl rfl

/-- Claim C1, counterexample to the claim as stated: two abstract
dependencies for the same package with disjoint candidate versions,
neither an editable singleton; the merge does not fail with any error,
it returns a merged abstract dependency with zero candidates. -/
theorem C1_counterexample :
    single_editable (mkAbs [mkCand "pkg" 1 false, mkCand "pkg" 2 false]).candidates = false
    ∧ single_editable (mkAbs [mkCand "pkg" 3 false, mkCand "pkg" 4 false]).candidates = false
    ∧ ((mkAbs [mkCand "pkg" 1 false, mkCand "pkg" 2 false]).compatible_abstract_dep
        (mkAbs [mkCand "pkg" 3 false, mkCand "pkg" 4 false])).map (fun d => d.candidates) =
      .ok [] :=
  ⟨rfl, rfl, rfl⟩

/-- Claim C2 (amended): merging an abstract dependency with itself yields
a candidate set equal to its own whenever it does not have exactly one
candidate, or its single candidate is editable; with exactly one
non-editable candidate the merged candidate list is empty instead. -/
theorem C2_merge_self_idempotent (A : AbstractDependency)
    (hs : A.specifiers.unset = false)
    (h : A.candidates.length ≠ 1 ∨ single_editable A.candidates = true) :
    (A.compatible_abstract_dep A).map (fun d => d.candidates) = .ok A.candidates := by
  rcases h with h | h
  · have hse : single_editable A.candidates = false :=
      single_editable_of_length_ne_one A.candidates h
    have hv : A.version_set = (A.candidates.map (fun c => c.version)).toFinset := by
      simp [AbstractDependency.version_set, h]
    have hfilter : A.candidates.filter
        (fun c => decide (c.version ∈ A.version_set)) = A.candidates := by
      rw [hv]
      refine List.filter_eq_self.mpr (fun c hc => ?_)
      simp only [decide_eq_true_eq, List.mem_toFinset]
      exact List.mem_map_of_mem (fun c => c.version) hc
    simp [AbstractDependency.compatible_abstract_dep, hse, specAnd, hs,
          AbstractDependency.compatible_versions, hfilter, Except.map]
  · simp [AbstractDependency.compatible_abstract_dep, h, Except.map]

/-- Claim C2, witness: merging a two-candidate abstract dependency with
itself through the amended theorem. -/
theorem C2_merge_self_idempotent_witness :
    ((mkAbs [mkCand "pkg" 1 false, mkCand "pkg" 2 false]).compatible_abstract_dep
        (mkAbs [mkCand "pkg" 1 false, mkCand "pkg" 2 false])).map (fun d => d.candidates) =
      .ok (mkAbs [mkCand "pkg" 1 false, mkCand "pkg" 2 false]).candidates :=
  C2_merge_self_idempotent (mkAbs [mkCand "pkg" 1 false, mkCand "pkg" 2 false]) rfl
    (Or.inl (by simp [mkAbs]))

/-- Claim C2, counterexample to the claim as stated: an abstract
dependency with exactly one pinned, non-editable candidate; merging it
with itself yields an empty candidate list, not one equal to its own. -/
theorem C2_counterexample :
    ((mkAbs [mkCand "pkg" 1 false]).compatible_abstract_dep
        (mkAbs [mkCand "pkg" 1 false])).map (fun d => d.candidates) = .ok []
    ∧ (mkAbs [mkCand "pkg" 1 false]).candidates ≠ [] :=
  ⟨rfl, by simp [mkAbs]⟩

/-- A wheel-cache miss leaves the dependency cache untouched. -/
theorem wheel_miss_cache_unchanged (ireq : IReq) (wm : Option (List String))
    (cache : DepCache)
    (h : (get_dependencies_from_wheel_cache ireq wm cache).fst = none) :
    (get_dependencies_from_wheel_cache ireq wm cache).snd = cache := by
  cases hb : ireq.editable
  · rcases wm with _ | ⟨_ | ⟨m, ms⟩⟩
    · simp [get_dependencies_from_wheel_cache, hb]
    · simp [get_dependencies_from_wheel_cache, hb]
    · simp [get_dependencies_from_wheel_cache, hb] at h
  · simp [get_dependencies_from_wheel_cache, hb]

/-- Errors escaping get_dependencies_from_json are a TypeError or a JSON
decode error, never the pipeline's fatal RuntimeError. -/
theorem json_error_cases (ireq : IReq) (resp : JsonResult) (cache : DepCache)
    (e : PyErr) (h : get_dependencies_from_json ireq resp cache = .error e) :
    e = .typeError ∨ e = .jsonDecode := by
  unfold get_dependencies_from_json at h
  split at h
  · simp at h
  · split at h
    · exact Or.inl (by simpa using h.symm)
    · split at h
      · split at h <;> simp at h
      · split at h
        · exact Or.inr (by simpa using h.symm)
        · simp at h

/-- The full-resolution tier always produces an answer, so the four-tier
chain can never exhaust itself with four misses. -/
theorem not_allTiersMiss (ireq : IReq) (w : World) : ¬ allTiersMiss ireq w := by
  rintro ⟨c1, c2, c3, c4, -, -, -, h4⟩
  simp [runTier] at h4

/-- The pipeline never surfaces the fatal RuntimeError: some tier (at the
latest the full-resolution one) always answers first. -/
theorem get_dependencies_no_fatal (ireq : IReq) (w : World) (s : String) :
    (get_dependencies ireq w).fst ≠ .error (.runtimeError s) := by
  unfold get_dependencies
  simp only [run_getters]
  rcases h1 : runTier .cache ireq w w.depCache with e1 | ⟨o1, c1⟩
  · simp [runTier] at h1
  · rcases o1 with _ | d1
    · rcases h2 : runTier .wheel ireq w c1 with e2 | ⟨o2, c2⟩
      · simp [runTier] at h2
      · rcases o2 with _ | d2
        · rcases h3 : runTier .json ireq w c2 with e3 | ⟨o3, c3⟩
          · have he3 : get_dependencies_from_json ireq w.jsonResp c2 = .error e3 := by
              simpa [runTier] using h3
            rcases json_error_cases ireq w.jsonResp c2 e3 he3 with rfl | rfl <;>
              simp [h1, h2, h3]
          · rcases o3 with _ | d3
            · rcases h4 : runTier .index ireq w c3 with e4 | ⟨o4, c4⟩
              · simp [runTier] at h4
              · rcases o4 with _ | d4
                · simp [runTier] at h4
                · simp [h1, h2, h3, h4]
            · simp [h1, h2, h3]
        · simp [h1, h2]
    · simp [h1]

/-- Claim C3: a non-editable candidate present in the dependency cache is
answered by the cache tier alone: get_dependencies returns the cached
list as a set, invokes no other tier, and leaves the cache untouched;
for an editable candidate the cache tier returns no answer. -/
theorem C3_cache_tier_answers_alone (ireq : IReq) (w : World) (cached : List String) :
    (ireq.editable = false →
      w.depCache.lookup (cacheKey ireq) = some cached →
      get_dependencies ireq w = (.ok cached.toFinset, [Tier.cache], w.depCache))
    ∧ (ireq.editable = true → get_dependencies_from_cache ireq w.depCache = none) := by
  constructor
  · intro hed hl
    simp [get_dependencies, run_getters, runTier, get_dependencies_from_cache, hed, hl]
  · intro hed
    simp [get_dependencies_from_cache, hed]

/-- Claim C3, witness: a seeded cache answers for foo pinned at version
one without any other tier running. -/
theorem C3_cache_tier_answers_alone_witness :
    get_dependencies (mkCand "foo" 1 false) cacheWorld =
      (.ok (["bar>=1"] : List String).toFinset, [Tier.cache], cacheWorld.depCache) :=
  (C3_cache_tier_answers_alone (mkCand "foo" 1 false) cacheWorld ["bar>=1"]).1 rfl rfl

/-- Claim C4: when the internal resolution of the full-resolution tier
fails, get_dependencies_from_index returns the empty dependency set with
the cache untouched instead of propagating the error; when it succeeds
for a non-editable candidate, the resolved set is returned and the
dependency cache is populated with the formatted result list. -/
theorem C4_index_tier_swallows_errors (dep : IReq) (cache : DepCache) :
    (get_dependencies_from_index dep (.error ()) cache = (∅, cache))
    ∧ (∀ rs : List String, dep.editable = false →
        get_dependencies_from_index dep (.ok rs) cache =
          (rs.toFinset, cache.insert (cacheKey dep) rs.dedup)) := by
  constructor
  · rfl
  · intro rs hed
    simp [get_dependencies_from_index, hed]

/-- Claim C4, witness: both branches at a concrete candidate. -/
theorem C4_index_tier_swallows_errors_witness :
    get_dependencies_from_index (mkCand "foo" 1 false) (.error ()) [] = (∅, [])
    ∧ get_dependencies_from_index (mkCand "foo" 1 false) (.ok ["bar>=1"]) [] =
        ((["bar>=1"] : List String).toFinset,
          DepCache.insert [] (cacheKey (mkCand "foo" 1 false)) (["bar>=1"] : List String).dedup) :=
  ⟨(C4_index_tier_swallows_errors (mkCand "foo" 1 false) []).1,
   (C4_index_tier_swallows_errors (mkCand "foo" 1 false) []).2 ["bar>=1"] rfl⟩

/-- Claim C7: for a pinned non-editable candidate not yet in the
dependency cache, a successful metadata fetch returns the generated
dependency list as a set and writes that list into the cache; for a
candidate already cached, a fresh query result is returned and the cache
entry is left as it was; the generated list consists of the fetched
dependencies with every extra-gated one filtered out. -/
theorem C7_json_populates_cache_once (ireq : IReq) (info : JsonInfo) (cache : DepCache)
    (hpin : is_pinned_requirement ireq = true) (hed : ireq.editable = false) :
    (cache.lookup (cacheKey ireq) = none →
      get_dependencies_from_json ireq (.ok info) cache =
        .ok (some (json_gen info).toFinset, cache.insert (cacheKey ireq) (json_gen info)))
    ∧ (∀ cached, cache.lookup (cacheKey ireq) = some cached →
        get_dependencies_from_json ireq (.ok info) cache =
          .ok (some (json_gen info).toFinset, cache))
    ∧ json_gen info =
        ((info.requires_dist.getD []).filter (fun d => !d.extraGated)).map
          (fun d => d.formatted) := by
  refine ⟨?_, ?_, ?_⟩
  · intro hl
    simp [get_dependencies_from_json, hpin, hed, hl]
  · intro cached hl
    simp [get_dependencies_from_json, hpin, hed, hl]
  · rcases hrd : info.requires_dist with _ | rd
    · simp [json_gen, hrd]
    · rcases rd with _ | ⟨d, ds⟩ <;> simp [json_gen, hrd]

/-- Claim C7, witness: the fresh-cache and already-cached branches at a
concrete pinned candidate. -/
theorem C7_json_populates_cache_once_witness :
    get_dependencies_from_json (mkCand "foo" 1 false) (.ok jsonInfo0) [] =
      .ok (some (json_gen jsonInfo0).toFinset,
        DepCache.insert [] (cacheKey (mkCand "foo" 1 false)) (json_gen jsonInfo0))
    ∧ get_dependencies_from_json (mkCand "foo" 1 false) (.ok jsonInfo0)
        [("foo==1", ["bar>=1"])] =
      .ok (some (json_gen jsonInfo0).toFinset, [("foo==1", ["bar>=1"])]) :=
  ⟨(C7_json_populates_cache_once (mkCand "foo" 1 false) jsonInfo0 [] rfl rfl).1 rfl,
   (C7_json_populates_cache_once (mkCand "foo" 1 false) jsonInfo0
      [("foo==1", ["bar>=1"])] rfl rfl).2.1 ["bar>=1"] rfl⟩

/-- Claim C8 (amended): for a pinned non-editable candidate not already
in the dependency cache a malformed metadata response makes
get_dependencies_from_json return no answer without raising; for a
candidate already in the cache the decode error of the fresh query
propagates to the caller instead. -/
theorem C8_json_malformed_is_tier_miss (ireq : IReq) (cache : DepCache)
    (hpin : is_pinned_requirement ireq = true) (hed : ireq.editable = false) :
    (cache.lookup (cacheKey ireq) = none →
      get_dependencies_from_json ireq .malformed cache = .ok (none, cache))
    ∧ (∀ cached, cache.lookup (cacheKey ireq) = some cached →
        get_dependencies_from_json ireq .malformed cache = .error .jsonDecode) := by
  constructor
  · intro hl
    simp [get_dependencies_from_json, hpin, hed, hl]
  · intro cached hl
    simp [get_dependencies_from_json, hpin, hed, hl]

/-- Claim C8, witness: the tier-miss branch at a concrete pinned
candidate with an empty cache. -/
theorem C8_json_malformed_is_tier_miss_witness :
    get_dependencies_from_json (mkCand "foo" 1 false) .malformed [] = .ok (none, []) :=
  (C8_json_malformed_is_tier_miss (mkCand "foo" 1 false) [] rfl rfl).1 rfl

/-- Claim C8, counterexample to the claim as stated: a pinned
non-editable candidate whose key is already in the dependency cache; on
a malformed response get_dependencies_from_json propagates the JSON
decode error instead of returning no answer. -/
theorem C8_counterexample :
    is_pinned_requirement (mkCand "foo" 1 false) = true
    ∧ (mkCand "foo" 1 false).editable = false
    ∧ get_dependencies_from_json (mkCand "foo" 1 false) .malformed
        [("foo==1", ["bar>=1"])] = .error .jsonDecode :=
  ⟨rfl, rfl, rfl⟩

/-- Claim C9: get_dependencies raises its fatal error naming the
candidate exactly when all four tiers return no answer — which the
always-answering full-resolution tier makes impossible — and whenever a
tier is the first to return an answer, that answer is what
get_dependencies returns. -/
theorem C9_fatal_iff_all_tiers_miss (ireq : IReq) (w : World) :
    ((get_dependencies ireq w).fst =
        .error (.runtimeError ("failed to get dependencies for " ++ ireq.name)) ↔
      allTiersMiss ireq w)
    ∧ ¬ allTiersMiss ireq w
    ∧ (∀ d c, runTier .cache ireq w w.depCache = .ok (some d, c) →
        (get_dependencies ireq w).fst = .ok d)
    ∧ (∀ c1 d c, runTier .cache ireq w w.depCache = .ok (none, c1) →
        runTier .wheel ireq w c1 = .ok (some d, c) →
        (get_dependencies ireq w).fst = .ok d)
    ∧ (∀ c1 c2 d c, runTier .cache ireq w w.depCache = .ok (none, c1) →
        runTier .wheel ireq w c1 = .ok (none, c2) →
        runTier .json ireq w c2 = .ok (some d, c) →
        (get_dependencies ireq w).fst = .ok d)
    ∧ (∀ c1 c2 c3 d c, runTier .cache ireq w w.depCache = .ok (none, c1) →
        runTier .wheel ireq w c1 = .ok (none, c2) →
        runTier .json ireq w c2 = .ok (none, c3) →
        runTier .index ireq w c3 = .ok (some d, c) →
        (get_dependencies ireq w).fst = .ok d) := by
  refine ⟨⟨fun h => absurd h (get_dependencies_no_fatal ireq w _),
           fun h => absurd h (not_allTiersMiss ireq w)⟩,
          not_allTiersMiss ireq w, ?_, ?_, ?_, ?_⟩
  · intro d c h1
    simp [get_dependencies, run_getters, h1]
  · intro c1 d c h1 h2
    simp [get_dependencies, run_getters, h1, h2]
  · intro c1 c2 d c h1 h2 h3
    simp [get_dependencies, run_getters, h1, h2, h3]
  · intro c1 c2 c3 d c h1 h2 h3 h4
    simp [get_dependencies, run_getters, h1, h2, h3, h4]

/-- Claim C9, witness: the cache tier answers first in the seeded world
and get_dependencies returns its answer. -/
theorem C9_fatal_iff_all_tiers_miss_witness :
    (get_dependencies (mkCand "foo" 1 false) cacheWorld).fst =
      .ok (["bar>=1"] : List String).toFinset :=
  (C9_fatal_iff_all_tiers_miss (mkCand "foo" 1 false) cacheWorld).2.2.1
    (["bar>=1"] : List String).toFinset cacheWorld.depCache rfl

/-- Claim C10: an unpinned non-editable candidate makes
get_dependencies_from_json raise a TypeError for every response and
cache; when the dependency-cache and wheel-cache tiers both miss,
get_dependencies propagates that TypeError having invoked only the first
three tiers, so the full-resolution tier is never reached. -/
theorem C10_unpinned_raises_typeerror (ireq : IReq) (w : World)
    (hed : ireq.editable = false)
    (hpin : is_pinned_requirement ireq = false)
    (h1 : get_dependencies_from_cache ireq w.depCache = none)
    (h2 : (get_dependencies_from_wheel_cache ireq w.wheelMatches w.depCache).fst = none) :
    (get_dependencies ireq w).fst = .error .typeError
    ∧ (get_dependencies ireq w).snd.fst = [Tier.cache, Tier.wheel, Tier.json]
    ∧ (∀ resp cache, get_dependencies_from_json ireq resp cache = .error .typeError) := by
  have hwheel : get_dependencies_from_wheel_cache ireq w.wheelMatches w.depCache =
      (none, w.depCache) := by
    have hsnd := wheel_miss_cache_unchanged ireq w.wheelMatches w.depCache h2
    exact Prod.ext_iff.mpr ⟨h2, hsnd⟩
  have hjson : ∀ resp cache, get_dependencies_from_json ireq resp cache = .error .typeError := by
    intro resp cache
    simp [get_dependencies_from_json, hed, hpin]
  refine ⟨?_, ?_, hjson⟩ <;>
    simp [get_dependencies, run_getters, runTier, h1, hwheel, hjson]

/-- Claim C10, witness: the unpinned candidate in the all-miss world. -/
theorem C10_unpinned_raises_typeerror_witness :
    (get_dependencies (mkUnpinned "foo") emptyWorld).fst = .error .typeError :=
  (C10_unpinned_raises_typeerror (mkUnpinned "foo") emptyWorld rfl rfl rfl rfl).1

/-- Overwriting an empty spec list with an empty spec list is the
identity on a specifier set. -/
theorem specset_eta (s : SpecifierSet) (h : s.specs = []) :
    ({ s with specs := ([] : List String) } : SpecifierSet) = s := by
  cases s
  simp_all

/-- The fold step of get_grouped_dependencies agrees with the amended
claim's fold step: the only textual difference is the specifier fallback
guard, and when both spec lists are empty the two branches coincide. -/
theorem combine_ireqs_eq_amended (acc i : IReq) :
    combine_ireqs acc i = amended_combine acc i := by
  unfold combine_ireqs amended_combine
  cases hsa : specAnd acc.specifier i.specifier with
  | ok s => rfl
  | error e =>
    by_cases hi : i.specifier.specs.isEmpty
    · by_cases hacc : acc.specifier.specs.isEmpty
      · have hi2 : i.specifier.specs = [] := by simpa using hi
        have hacc2 : acc.specifier.specs = [] := by simpa using hacc
        simp [hi, hacc, hi2, specset_eta acc.specifier hacc2]
      · simp [hi, hacc]
    · by_cases hacc : acc.specifier.specs.isEmpty
      · simp [hi, hacc]
      · simp [hi, hacc]

/-- The recursive group fold of the source equals the monadic left fold
of the amended claim. -/
theorem fold_combine_eq_foldlM (r : List IReq) (a : IReq) :
    fold_combine a r = List.foldlM amended_combine a r := by
  induction r generalizing a with
  | nil => rfl
  | cons x xs ih =>
    show Except.bind (combine_ireqs a x) (fun a2 => fold_combine a2 xs) = _
    rw [combine_ireqs_eq_amended]
    cases h : amended_combine a x with
    | error e => simp [Except.bind, List.foldlM, h, Bind.bind]
    | ok a2 => simp [Except.bind, List.foldlM, h, Bind.bind, ih]

/-- Claim C6 (amended): get_grouped_dependencies yields one entry per
canonical-name group, the first editable entry alone when one exists,
otherwise the left-to-right fold intersecting specifiers (falling back
to the other side's specs when the conjunction fails and the
accumulator's spec list is empty), conjoining constraint flags, taking
the union of extras sorted and de-duplicated, and combining markers only
in the degenerate case: an accumulator without markers adopts the
incoming ones, an accumulator whose marker list begins with a tuple or a
nested list keeps its markers and discards the incoming ones, and only a
bare-string head is joined with the and connective. -/
theorem C6_grouped_dependencies_amended (l : List IReq) :
    get_grouped_dependencies l = amended_grouped l := by
  unfold get_grouped_dependencies amended_grouped
  have hfun : (fun g : IReq × List IReq =>
      match (g.fst :: g.snd).find? (fun ireq => ireq.editable) with
      | some e => (Except.ok e : Except Unit IReq)
      | none => fold_combine g.fst g.snd) =
      (fun g : IReq × List IReq =>
      match (g.fst :: g.snd).find? (fun ireq => ireq.editable) with
      | some e => (Except.ok e : Except Unit IReq)
      | none => List.foldlM amended_combine g.fst g.snd) := by
    funext g
    cases (g.fst :: g.snd).find? (fun ireq => ireq.editable) with
    | some e => rfl
    | none => simpa using fold_combine_eq_foldlM g.snd g.fst
  rw [hfun]

/-- Claim C6, counterexample to the claim as stated: two non-editable
declarations of pkg, each carrying an ordinary tuple-headed marker.
The yielded combined entry keeps the first declaration's markers
unchanged, which differs from the logical AND of the two markers the
claim describes. -/
theorem C6_counterexample :
    (get_grouped_dependencies [ireqA, ireqB]).map
        (fun rs => rs.map (fun r => r.markers)) = .ok [some markerA]
    ∧ claim_and_markers (some markerA) (some markerB) ≠ some markerA := by
  constructor
  · rfl
  · intro h
    simp [claim_and_markers, markerA, markerB, Markers.toList] at h

end Requirementslib
